import Mathlib

/-!
Verification of the Minute.ly outreach automation core.

The development shallowly embeds the orchestration core of the repository:
the legacy single-run orchestrator (`main.py`: `LeadsManager`,
`OutreachOrchestrator`), the background worker (`backend/worker/linkedin_worker.py`),
the task registry (`backend/worker/task_queue.py`) and the daily batch
scheduler (`backend/services/batch_service.py`).

Modelling conventions:
* Python strings are modelled as lists of characters (`PyStr`), so that
  slicing and length arguments mirror code-point counts.
* `datetime` values are integers (seconds since an arbitrary epoch);
  `datetime.fromisoformat` is an explicit parameter `parse` returning
  `Option Int` (`none` models a `ValueError`).
* `random.uniform` / `random.randint` draws are modelled by an explicit
  entropy argument `r`; `randint a b r = a + r % (b - a + 1)` realises an
  arbitrary draw from the inclusive range.
* Database rows are records in explicit lists; SQLAlchemy queries become
  `filter` / `find?` / sort / `take` pipelines over those lists.
-/

/-- Python strings viewed as lists of code points. -/
abbrev PyStr := List Char

/-- Boolean chain predicate: `r` holds between every two adjacent elements. -/
def chainB {α : Type} (r : α → α → Bool) : List α → Bool
  | [] => true
  | [_] => true
  | a :: b :: l => r a b && chainB r (b :: l)

namespace Main

/-! ### Embedding of `main.py` (legacy orchestrator) -/

/-- `DAILY_LIMIT` (main.py line 52): hard cap on leads processed per run. -/
def DAILY_LIMIT : Nat := 20

/-- `MIN_DELAY` (main.py): minimum delay seconds between browser actions. -/
def MIN_DELAY : Nat := 60

/-- `MAX_DELAY` (main.py): maximum delay seconds between browser actions. -/
def MAX_DELAY : Nat := 120

/-- `CONNECTION_NOTE_MAX_CHARS` (main.py line 60). -/
def CONNECTION_NOTE_MAX_CHARS : Nat := 300

/-- Python `str.strip()`: drop whitespace from both ends. -/
def pyStrip (s : PyStr) : PyStr :=
  ((s.dropWhile Char.isWhitespace).reverse.dropWhile Char.isWhitespace).reverse

/-- One row of `leads.csv` as read by `LeadsManager` (CSV_FIELDNAMES). -/
structure Lead where
  profile_url : PyStr
  name : PyStr
  status : PyStr
  last_contact_date : PyStr
  industry : PyStr
  company : PyStr
deriving DecidableEq, Repr

/-- `LeadsManager.is_older_than` (main.py lines 1147-1168): true when the
timestamp string is blank, false when it does not parse, otherwise a strict
comparison of the elapsed time against `timedelta(hours=hours, days=days)`.
`parse` stands for `datetime.fromisoformat`, `now` for `datetime.now()`. -/
def is_older_than (parse : PyStr → Option Int) (now : Int)
    (dt_str : PyStr) (hours days : Int) : Bool :=
  if pyStrip dt_str = [] then true
  else
    match parse (pyStrip dt_str) with
    | some dt => decide (now - dt > hours * 3600 + days * 86400)
    | none => false

/-- Per-lead test of `LeadsManager.get_actionable_leads` (main.py lines
1092-1135): New and ConnectionSent are always actionable, Connected after a
2-hour cooldown, Message1Sent after a 3-day cooldown, all others never. -/
def actionable_cond (parse : PyStr → Option Int) (now : Int) (lead : Lead) : Bool :=
  let status := pyStrip lead.status
  if status = "New".toList then true
  else if status = "ConnectionSent".toList then true
  else if status = "Connected".toList then
    is_older_than parse now lead.last_contact_date 2 0
  else if status = "Message1Sent".toList then
    is_older_than parse now lead.last_contact_date 0 3
  else false

/-- Accumulator loop of `get_actionable_leads`: appends each actionable lead
and stops as soon as `DAILY_LIMIT` leads have been collected. -/
def get_actionable_go (parse : PyStr → Option Int) (now : Int)
    (acc : List Lead) : List Lead → List Lead
  | [] => acc
  | l :: ls =>
    let acc2 := if actionable_cond parse now l then acc ++ [l] else acc
    if DAILY_LIMIT ≤ acc2.length then acc2 else get_actionable_go parse now acc2 ls

/-- `LeadsManager.get_actionable_leads` (main.py lines 1092-1135). -/
def get_actionable_leads (parse : PyStr → Option Int) (now : Int)
    (leads : List Lead) : List Lead :=
  get_actionable_go parse now [] leads

/-- Template selection inside `OutreachOrchestrator.build_connection_note`
(main.py lines 1309-1345): industry-keyed dictionary with the Entertainment
template as the default. -/
def connection_note_template (name company industry : PyStr) : PyStr :=
  let sports := "Hi ".toList ++ name ++ ", saw the work at ".toList ++ company
    ++ ". We help sports leagues verticalize highlights instantly for better yield. Would love to share a quick 30s demo!".toList
  let news := "Hi ".toList ++ name
    ++ ", for publishers, breaking news needs to be vertical fast. Minute.ly automates this. Happy to share a quick demo!".toList
  let entertainment := "Hi ".toList ++ name ++ ", saw ".toList ++ company
    ++ "\x27s content strategy. Minute.ly turns horizontal video into vertical instantly -- boosting engagement. Happy to share a quick demo!".toList
  if industry = "Sports".toList then sports
  else if industry = "News".toList then news
  else entertainment

/-- `OutreachOrchestrator.build_connection_note` (main.py lines 1309-1345):
the selected template, truncated to `note[:297] + "..."` when it exceeds
`CONNECTION_NOTE_MAX_CHARS`. -/
def build_connection_note (name company industry : PyStr) : PyStr :=
  let note := connection_note_template name company industry
  if CONNECTION_NOTE_MAX_CHARS < note.length then
    note.take (CONNECTION_NOTE_MAX_CHARS - 3) ++ "...".toList
  else note

end Main

namespace Main

/-! ### Embedding of `OutreachOrchestrator.process_lead` and `run`
(main.py lines 1421-1631, 1634-1706).

The browser environment observed while one lead is processed is collected in
`LeadEnv`: the outcome of `navigate_to_profile`, `detect_security_challenge`,
`send_connection_request` (a string result in the source), `is_connected`,
`send_message` and `check_for_reply`.  Scraping and classification update
only `Industry`/`Company` fields and perform no state-mutating browser
action, so they are not modelled. -/

/-- Orchestrator configuration (`OutreachConfig.daily_limit`). -/
structure OrchConfig where
  daily_limit : Nat
deriving DecidableEq, Repr

/-- Browser observations for one lead during `process_lead`. -/
structure LeadEnv where
  nav_ok : Bool
  challenge : Bool
  connect_result : PyStr
  accepted : Bool
  send_ok : Bool
  has_reply : Bool
deriving DecidableEq, Repr

/-- The two state-mutating browser actions of the claims: a connection
request (`send_connection_request`) and a message send (`send_message`). -/
inductive BrowserAction
  | connectionRequest
  | messageSend
deriving DecidableEq, Repr

/-- How `process_lead` ended for one lead. `securityChallenge` is the
distinct error category of the challenge abort. -/
inductive LeadOutcome
  | capReached
  | navError
  | securityChallenge
  | processed
  | skipped
deriving DecidableEq, Repr

/-- Result of `process_lead`: the updated `actions_taken` counter, the
state-mutating browser actions attempted, the outcome category, and the
`Status` value written back to the CSV (if any). -/
structure LeadResult where
  actions_taken : Nat
  actions : List BrowserAction
  outcome : LeadOutcome
  status_update : Option PyStr
deriving DecidableEq, Repr

/-- `OutreachOrchestrator.process_lead` (main.py lines 1421-1530) together
with its `_handle_*` helpers (lines 1532-1631): cap check first, then
navigation, then the challenge abort which forces `actions_taken` to the
daily limit, then the status dispatch. -/
def process_lead (cfg : OrchConfig) (actions_taken : Nat) (lead : Lead)
    (env : LeadEnv) : LeadResult :=
  if cfg.daily_limit ≤ actions_taken then
    ⟨actions_taken, [], .capReached, none⟩
  else if env.nav_ok = false then
    ⟨actions_taken, [], .navError, some "Error".toList⟩
  else if env.challenge then
    ⟨cfg.daily_limit, [], .securityChallenge, none⟩
  else if pyStrip lead.status = "New".toList then
      if env.connect_result = "ConnectionSent".toList then
        ⟨actions_taken + 1, [.connectionRequest], .processed,
          some "ConnectionSent".toList⟩
      else if env.connect_result = "AlreadyConnected".toList then
        ⟨actions_taken, [.connectionRequest], .processed,
          some "Connected".toList⟩
      else if env.connect_result = "AlreadyPending".toList then
        ⟨actions_taken, [.connectionRequest], .processed,
          some "ConnectionSent".toList⟩
      else
        ⟨actions_taken, [.connectionRequest], .processed, some "Error".toList⟩
    else if pyStrip lead.status = "ConnectionSent".toList then
      if env.accepted then
        ⟨actions_taken, [], .processed, some "Connected".toList⟩
      else
        ⟨actions_taken, [], .processed, none⟩
    else if pyStrip lead.status = "Connected".toList then
      if env.send_ok then
        ⟨actions_taken + 1, [.messageSend], .processed,
          some "Message1Sent".toList⟩
      else
        ⟨actions_taken, [.messageSend], .processed, some "Error".toList⟩
    else if pyStrip lead.status = "Message1Sent".toList then
      if env.has_reply then
        ⟨actions_taken, [], .processed, some "Replied".toList⟩
      else if env.send_ok then
        ⟨actions_taken + 1, [.messageSend], .processed,
          some "Message2Sent".toList⟩
      else
        ⟨actions_taken, [.messageSend], .processed, some "Error".toList⟩
    else
      ⟨actions_taken, [], .skipped, none⟩

/-- One entry of the run trace: the counter when the lead was picked up and
the result of processing it. -/
structure RunStep where
  counter_before : Nat
  result : LeadResult
deriving DecidableEq, Repr

/-- The per-lead loop of `OutreachOrchestrator.run` (main.py lines
1671-1683): before each lead the daily cap is re-checked and the loop breaks
once `actions_taken` has reached it. -/
def run_leads (cfg : OrchConfig) (actions_taken : Nat) :
    List (Lead × LeadEnv) → List RunStep
  | [] => []
  | (lead, env) :: rest =>
    if cfg.daily_limit ≤ actions_taken then []
    else
      ⟨actions_taken, process_lead cfg actions_taken lead env⟩
        :: run_leads cfg (process_lead cfg actions_taken lead env).actions_taken rest

end Main

namespace Worker

/-! ### Embedding of `backend/worker/linkedin_worker.py`
(`LinkedInWorker._run_loop`, `_execute_task`, `_send_messages`,
`_random_delay`) and the `WorkerTask` lifecycle.

One job execution is modelled as the trace of its observable events:
mutations of the task record (status, total, progress) and browser-facing
steps (navigation, safety delay, message send).  The per-message browser
and database observations are collected in `MsgEnv`. -/

/-- Safety-delay configuration (`settings.min_delay`, `settings.max_delay`;
defaults 60 and 120 seconds). -/
structure WCfg where
  min_delay : Nat
  max_delay : Nat
deriving DecidableEq, Repr

/-- Model of `random.randint(a, b)` (used by `_random_delay`): an arbitrary
entropy value `r` mapped into the inclusive range `[a, b]`. -/
def randint (a b r : Nat) : Nat := a + r % (b - a + 1)

/-- `WorkerTask.status` values: queued, running, completed, failed. -/
inductive TStatus
  | queued
  | running
  | completed
  | failed
deriving DecidableEq, Repr

/-- Observations for one message id processed by `_send_messages`: whether
the `Message` row was found, whether `navigate_to_profile` succeeded,
whether `detect_security_challenge` fired, whether `send_message`
succeeded, and the entropy of the two possible delay draws. -/
structure MsgEnv where
  found : Bool
  nav_ok : Bool
  challenge : Bool
  send_ok : Bool
  r1 : Nat
  r2 : Nat
deriving DecidableEq, Repr

/-- Observable events of one worker job. -/
inductive WEvent
  | setStatus (s : TStatus)
  | setTotal (t : Nat)
  | incProgress
  | navigate
  | delay (d : Nat)
  | sendMessage
deriving DecidableEq, Repr

/-- The message loop of `LinkedInWorker._send_messages` (linkedin_worker.py
lines 366-430) as an event trace.  `total` is `task.total`, `progress` the
value of `task.progress` at loop entry.  The Bool records whether the loop
aborted the task with `failed` (security challenge).  Source order per
message: row lookup (missing rows only advance progress), navigation
(failure advances progress and continues), `_random_delay`, challenge check
(aborts the task), `send_message`, `task.progress += 1`, and a final
`_random_delay` only while `task.progress < task.total`. -/
def send_loop (cfg : WCfg) (total : Nat) (progress : Nat) :
    List MsgEnv → List WEvent × Bool
  | [] => ([], false)
  | m :: rest =>
    if m.found = false then
      (WEvent.incProgress :: (send_loop cfg total (progress + 1) rest).1,
       (send_loop cfg total (progress + 1) rest).2)
    else if m.nav_ok = false then
      (WEvent.navigate :: WEvent.incProgress
          :: (send_loop cfg total (progress + 1) rest).1,
       (send_loop cfg total (progress + 1) rest).2)
    else if m.challenge then
      ([WEvent.navigate, WEvent.delay (randint cfg.min_delay cfg.max_delay m.r1),
        WEvent.setStatus .failed], true)
    else if progress + 1 < total then
      (WEvent.navigate :: WEvent.delay (randint cfg.min_delay cfg.max_delay m.r1)
          :: WEvent.sendMessage :: WEvent.incProgress
          :: WEvent.delay (randint cfg.min_delay cfg.max_delay m.r2)
          :: (send_loop cfg total (progress + 1) rest).1,
       (send_loop cfg total (progress + 1) rest).2)
    else
      (WEvent.navigate :: WEvent.delay (randint cfg.min_delay cfg.max_delay m.r1)
          :: WEvent.sendMessage :: WEvent.incProgress
          :: (send_loop cfg total (progress + 1) rest).1,
       (send_loop cfg total (progress + 1) rest).2)

/-- One job execution by `LinkedInWorker._run_loop` (lines 100-137) and
`_execute_task` (lines 139-151): the task is marked running; with no ready
browser it fails fast; otherwise `_send_messages` sets
`task.total = len(message_ids)` and runs the loop, after which `_run_loop`
marks the task completed unless a terminal failure was already recorded. -/
def run_task (cfg : WCfg) (browser_ready : Bool) (msgs : List MsgEnv) :
    List WEvent :=
  if browser_ready = false then
    [WEvent.setStatus .running, WEvent.setStatus .failed]
  else
    WEvent.setStatus .running :: WEvent.setTotal msgs.length
      :: ((send_loop cfg msgs.length 0 msgs).1
          ++ (if (send_loop cfg msgs.length 0 msgs).2 then []
              else [WEvent.setStatus .completed]))

/-- Snapshot of the mutable `WorkerTask` record. -/
structure TaskState where
  status : TStatus
  progress : Nat
  total : Nat
deriving DecidableEq, Repr

/-- Apply one event to a task snapshot. -/
def stepEvent (s : TaskState) : WEvent → TaskState
  | .setStatus st => { s with status := st }
  | .setTotal t => { s with total := t }
  | .incProgress => { s with progress := s.progress + 1 }
  | .navigate => s
  | .delay _ => s
  | .sendMessage => s

/-- All snapshots of the task record along an event trace, the initial
snapshot included. -/
def run_states (s : TaskState) : List WEvent → List TaskState
  | [] => [s]
  | e :: es => s :: run_states (stepEvent s e) es

/-- The status assignments of a trace, in order. -/
def statusAssign : WEvent → Option TStatus
  | .setStatus s => some s
  | _ => none

/-- The send/delay skeleton of a trace. -/
inductive SDEvent
  | send
  | delay (d : Nat)
deriving DecidableEq, Repr

/-- Project a trace onto its sends and delays. -/
def sd_proj : WEvent → Option SDEvent
  | .sendMessage => some .send
  | .delay d => some (.delay d)
  | _ => none

def isSend : SDEvent → Bool
  | .send => true
  | .delay _ => false

/-- Adjacency predicate: not two sends in a row. -/
def sd_separated (a b : SDEvent) : Bool := !(isSend a && isSend b)

/-- Claim C3 read as stated: every state-mutating send of the trace is
followed later by at least one safety delay. -/
def delay_follows_each_send : List WEvent → Bool
  | [] => true
  | WEvent.sendMessage :: rest =>
    (rest.any fun e =>
      match e with
      | WEvent.delay _ => true
      | _ => false) && delay_follows_each_send rest
  | _ :: rest => delay_follows_each_send rest

end Worker


namespace TaskQueue

/-! ### Embedding of `backend/worker/task_queue.py` (`TaskRegistry`). -/

/-- One registered `WorkerTask` as seen by `TaskRegistry.cleanup_old`: its
dict key (`task_id`) and lifecycle status.  The registry dict is modelled as
the list of its tasks in registration (insertion) order; deleting keys keeps
the order of the remaining entries. -/
structure WorkerTask where
  task_id : Nat
  status : Worker.TStatus
deriving DecidableEq, Repr

/-- The terminal test of `cleanup_old`: `status in ("completed", "failed")`. -/
def isTerminal (t : WorkerTask) : Bool :=
  t.status == Worker.TStatus.completed || t.status == Worker.TStatus.failed

/-- `TaskRegistry.cleanup_old` (task_queue.py lines 54-62): collect the
terminal tasks in registration order; when more than `max_completed` of them
exist, delete the oldest surplus ones from the registry by task id. -/
def cleanup_old (tasks : List WorkerTask) (max_completed : Nat) :
    List WorkerTask :=
  let completed := tasks.filter isTerminal
  if max_completed < completed.length then
    let doomed := (completed.take (completed.length - max_completed)).map
      WorkerTask.task_id
    tasks.filter fun t => decide (t.task_id ∉ doomed)
  else tasks

end TaskQueue

namespace BatchService

/-! ### Embedding of `backend/services/batch_service.py`
(`get_or_create_today_batch`) over the entity shapes of
`backend/models/contact.py`, `backend/models/message.py`,
`backend/models/daily_batch.py` and the template helper
`build_initial_message` of `backend/services/message_service.py`.

Database rows are records in lists; the order of `db.contacts` is the
iteration order of the `Contact` table. -/

/-- A `Contact` row, restricted to the fields the batch scheduler reads. -/
structure Contact where
  id : Nat
  first_name : String
  company : String
  industry : String
  is_connected : Bool
  last_shown_at : Option Int
deriving DecidableEq, Repr

/-- A `Message` row, restricted to the fields the batch scheduler reads. -/
structure MessageRow where
  contact_id : Nat
  message_type : String
  status : String
deriving DecidableEq, Repr

/-- A `DailyBatchContact` row. -/
structure BatchEntry where
  contact_id : Nat
  selected : Bool
  message_id : Option Nat
deriving DecidableEq, Repr

/-- A `DailyBatch` row together with its entries. -/
structure DailyBatch where
  batch_date : Int
  entries : List BatchEntry
deriving DecidableEq, Repr

/-- The database state visible to the batch scheduler. -/
structure DB where
  contacts : List Contact
  messages : List MessageRow
  batches : List DailyBatch
deriving DecidableEq, Repr

/-- `settings.batch_size` (default 10) and `settings.cooldown_days`
(default 60). -/
structure BatchCfg where
  batch_size : Nat
  cooldown_days : Int
deriving DecidableEq, Repr

/-- `build_initial_message` (message_service.py lines 69-75): the initial
template keyed by industry with the `Unknown` template as default;
`{company}` is filled with `company or "your company"`. -/
def build_initial_message (name company industry : String) : String :=
  let comp := if company = "" then "your company" else company
  if industry = "Sports" then
    "Hi " ++ name ++ ", I came across your work at " ++ comp
      ++ " and wanted to share something relevant. We built an H2V AI model that verticalizes horizontal sports content in seconds -- already used by Fox, Paramount, and Univision. Attached a 30s demo. Would love to hear your thoughts!"
  else if industry = "News" then
    "Hi " ++ name
      ++ ", for news publishers, breaking stories need to go vertical fast. We built an H2V AI model that does this automatically -- already used by Fox, Paramount, and Univision. Attached a quick demo!"
  else if industry = "Entertainment" then
    "Hi " ++ name ++ ", saw " ++ comp
      ++ "\x27s content strategy. We built an H2V AI model that turns horizontal video into vertical automatically -- boosting engagement across platforms. Used by Fox, Paramount, Univision. Attached a demo!"
  else
    "Hi " ++ name
      ++ ", wanted to share something we built -- an AI model that verticalizes horizontal video instantly. Already used by Fox, Paramount, and Univision. Attached a quick 30s demo!"

/-- One row of the API answer (`BatchContactOut`), restricted to the contact
key, the selection flag, the linked message and the suggested message. -/
structure BatchContactOut where
  contact_id : Nat
  selected : Bool
  message_id : Option Nat
  suggested_message : String
deriving DecidableEq, Repr

/-- The API answer (`TodayBatchOut`). -/
structure TodayBatchOut where
  batch_date : Int
  contacts : List BatchContactOut
deriving DecidableEq, Repr

/-- The order `ORDER BY last_shown_at ASC NULLS FIRST`. -/
def shownLe (a b : Contact) : Bool :=
  match a.last_shown_at, b.last_shown_at with
  | none, _ => true
  | some _, none => false
  | some x, some y => decide (x ≤ y)

instance : DecidableRel (fun a b : Contact => shownLe a b = true) :=
  fun a b => inferInstanceAs (Decidable (shownLe a b = true))

instance : IsTotal Contact (fun a b : Contact => shownLe a b = true) where
  total a b := by
    unfold shownLe
    rcases a.last_shown_at with _ | x <;> rcases b.last_shown_at with _ | y
      <;> simp <;> omega

instance : IsTrans Contact (fun a b : Contact => shownLe a b = true) where
  trans a b c hab hbc := by
    unfold shownLe at hab hbc ⊢
    rcases ha : a.last_shown_at with _ | x
      <;> rcases hb2 : b.last_shown_at with _ | y
      <;> rcases hc : c.last_shown_at with _ | z
      <;> simp_all
      <;> omega

/-- The `eligible` query of `get_or_create_today_batch` (batch_service.py
lines 58-84): connected contacts never shown or last shown before the
cooldown cutoff, excluding anyone with a sent initial message, ordered
oldest-shown-first with nulls first, limited to the batch size. -/
def eligible_contacts (cfg : BatchCfg) (db : DB) (now : Int) : List Contact :=
  (List.insertionSort (fun a b => shownLe a b = true)
    (db.contacts.filter fun c =>
      c.is_connected
        && (match c.last_shown_at with
            | none => true
            | some t => decide (t < now - cfg.cooldown_days * 86400))
        && decide (c.id ∉ ((db.messages.filter fun msg =>
            msg.message_type == "initial" && msg.status == "sent").map
            MessageRow.contact_id)))).take cfg.batch_size

/-- The batch-generation path of `get_or_create_today_batch` (batch_service.py
lines 52-109): select the eligible contacts, stamp their `last_shown_at`,
attach one entry per contact to the batch of the date (creating the batch row
when `batch_exists` is false), and answer with unselected rows. -/
def create_today_batch (cfg : BatchCfg) (db : DB) (today now : Int)
    (batch_exists : Bool) : DB × TodayBatchOut :=
  let eligible := eligible_contacts cfg db now
  let ids := eligible.map Contact.id
  let entries := eligible.map fun c => (⟨c.id, false, none⟩ : BatchEntry)
  let contacts2 := db.contacts.map fun c =>
    if decide (c.id ∈ ids) then { c with last_shown_at := some now } else c
  let batches2 :=
    if batch_exists then
      db.batches.map fun b =>
        if b.batch_date == today then { b with entries := entries } else b
    else db.batches ++ [⟨today, entries⟩]
  (⟨contacts2, db.messages, batches2⟩,
   ⟨today, eligible.map fun c =>
      ⟨c.id, false, none,
        build_initial_message c.first_name c.company c.industry⟩⟩)

/-- `get_or_create_today_batch` (batch_service.py lines 23-109): an existing
batch for the date is returned as-is only when it has at least one entry
(`if batch and len(batch.entries) > 0`); otherwise the generation path runs,
reusing the existing (empty) batch row when there is one. -/
def get_or_create_today_batch (cfg : BatchCfg) (db : DB) (today now : Int) :
    DB × TodayBatchOut :=
  match db.batches.find? (fun b => b.batch_date == today) with
  | some b =>
    if 0 < b.entries.length then
      (db, ⟨today, b.entries.map fun e =>
        match db.contacts.find? (fun c => c.id == e.contact_id) with
        | some c => ⟨e.contact_id, e.selected, e.message_id,
            build_initial_message c.first_name c.company c.industry⟩
        | none => ⟨e.contact_id, e.selected, e.message_id, ""⟩⟩)
    else create_today_batch cfg db today now true
  | none => create_today_batch cfg db today now false

end BatchService

/-! ## Theorems -/

theorem chainB_cons_cons {α : Type} (r : α → α → Bool) (a b : α) (l : List α) :
    chainB r (a :: b :: l) = (r a b && chainB r (b :: l)) := rfl

/-- A `Pairwise` list is in particular adjacency-chained. -/
theorem chainB_of_pairwise {α : Type} {r : α → α → Bool} :
    ∀ {l : List α}, List.Pairwise (fun a b => r a b = true) l → chainB r l = true
  | [], _ => rfl
  | [_], _ => rfl
  | a :: b :: l, h => by
    rw [List.pairwise_cons] at h
    rw [chainB_cons_cons, Bool.and_eq_true]
    exact ⟨h.1 b (List.mem_cons_self b l), chainB_of_pairwise h.2⟩

namespace Main

theorem get_actionable_go_mem (parse : PyStr → Option Int) (now : Int) :
    ∀ (ls : List Lead) (acc : List Lead) (lead : Lead),
      lead ∈ get_actionable_go parse now acc ls →
      lead ∈ acc ∨ (lead ∈ ls ∧ actionable_cond parse now lead = true)
  | [], acc, lead, h => Or.inl h
  | l :: ls, acc, lead, h => by
    unfold get_actionable_go at h
    by_cases hc : actionable_cond parse now l = true
    · rw [if_pos hc] at h
      by_cases hlim : DAILY_LIMIT ≤ (acc ++ [l]).length
      · rw [if_pos hlim] at h
        rcases List.mem_append.mp h with h1 | h1
        · exact Or.inl h1
        · rcases List.mem_singleton.mp h1 with rfl
          exact Or.inr ⟨List.mem_cons_self _ _, hc⟩
      · rw [if_neg hlim] at h
        rcases get_actionable_go_mem parse now ls (acc ++ [l]) lead h with h1 | h1
        · rcases List.mem_append.mp h1 with h2 | h2
          · exact Or.inl h2
          · rcases List.mem_singleton.mp h2 with rfl
            exact Or.inr ⟨List.mem_cons_self _ _, hc⟩
        · exact Or.inr ⟨List.mem_cons_of_mem _ h1.1, h1.2⟩
    · rw [if_neg hc] at h
      by_cases hlim : DAILY_LIMIT ≤ acc.length
      · rw [if_pos hlim] at h
        exact Or.inl h
      · rw [if_neg hlim] at h
        rcases get_actionable_go_mem parse now ls acc lead h with h1 | h1
        · exact Or.inl h1
        · exact Or.inr ⟨List.mem_cons_of_mem _ h1.1, h1.2⟩



end Main


/-- C6: a lead whose status is `Connected` and whose recorded
`Last_Contact_Date` parses to time `t` is selected by
`get_actionable_leads` only when strictly more than 2 hours (7200 s) have
elapsed since `t`; any younger timestamp leaves the lead unselected, so the
message attempt is deferred to a later run.  The side condition
`parse [] = none` records that `datetime.fromisoformat` rejects the empty
string. -/
theorem C6_connected_cooldown (parse : PyStr → Option Int) (now : Int)
    (leads : List Main.Lead) (lead : Main.Lead) (t : Int)
    (hempty : parse [] = none)
    (hmem : lead ∈ Main.get_actionable_leads parse now leads)
    (hstatus : Main.pyStrip lead.status = "Connected".toList)
    (hparse : parse (Main.pyStrip lead.last_contact_date) = some t) :
    now - t > 7200 := by
  rcases Main.get_actionable_go_mem parse now leads [] lead hmem with h | h
  · cases h
  · have hcond := h.2
    unfold Main.actionable_cond at hcond
    rw [hstatus] at hcond
    rw [if_neg (by decide), if_neg (by decide), if_pos rfl] at hcond
    unfold Main.is_older_than at hcond
    by_cases hblank : Main.pyStrip lead.last_contact_date = []
    · rw [hblank] at hparse
      rw [hempty] at hparse
      cases hparse
    · rw [if_neg hblank, hparse] at hcond
      have := of_decide_eq_true hcond
      omega

/-- Witness for C6 at a concrete parse function, time and lead list. -/
theorem C6_connected_cooldown_witness : (7201 : Int) - 0 > 7200 :=
  C6_connected_cooldown
    (fun s => if s = "2025-01-01T00:00:00".toList then some 0 else none) 7201
    [⟨"u".toList, "n".toList, "Connected".toList,
      "2025-01-01T00:00:00".toList, [], []⟩]
    ⟨"u".toList, "n".toList, "Connected".toList,
      "2025-01-01T00:00:00".toList, [], []⟩
    0 (by decide) (by decide) (by decide) (by decide)

/-- C10: `is_older_than` returns `true` on every blank (empty or
whitespace-only) timestamp string, and `false` on every non-blank string
that the datetime parser rejects. -/
theorem C10_blank_and_corrupt_timestamps (parse : PyStr → Option Int)
    (now : Int) (s : PyStr) (hours days : Int) :
    (Main.pyStrip s = [] → Main.is_older_than parse now s hours days = true)
    ∧ (Main.pyStrip s ≠ [] → parse (Main.pyStrip s) = none →
        Main.is_older_than parse now s hours days = false) := by
  constructor
  · intro hblank
    unfold Main.is_older_than
    rw [if_pos hblank]
  · intro hblank hnone
    unfold Main.is_older_than
    rw [if_neg hblank, hnone]

/-- Witness for C10: a whitespace-only string is treated as actionable and a
corrupt string is never actionable, under a parser rejecting both. -/
theorem C10_blank_and_corrupt_timestamps_witness :
    Main.is_older_than (fun _ => none) 0 "  ".toList 2 0 = true
    ∧ Main.is_older_than (fun _ => none) 0 "corrupt".toList 2 0 = false :=
  ⟨(C10_blank_and_corrupt_timestamps (fun _ => none) 0 "  ".toList 2 0).1
      (by decide),
   (C10_blank_and_corrupt_timestamps (fun _ => none) 0 "corrupt".toList 2 0).2
      (by decide) rfl⟩

/-- C9: `build_connection_note` always returns at most 300 characters, and
whenever the selected template instantiation exceeds 300 characters the
result is its first 297 characters followed by `...`, exactly 300 in all. -/
theorem C9_connection_note_truncation (name company industry : PyStr) :
    (Main.build_connection_note name company industry).length ≤ 300
    ∧ (300 < (Main.connection_note_template name company industry).length →
        Main.build_connection_note name company industry
          = (Main.connection_note_template name company industry).take 297
            ++ "...".toList
        ∧ (Main.build_connection_note name company industry).length = 300) := by
  unfold Main.build_connection_note
  by_cases h : Main.CONNECTION_NOTE_MAX_CHARS
      < (Main.connection_note_template name company industry).length
  · rw [if_pos h]
    have hlen : ((Main.connection_note_template name company industry).take
        (Main.CONNECTION_NOTE_MAX_CHARS - 3) ++ "...".toList).length = 300 := by
      rw [List.length_append, List.length_take]
      have h300 : Main.CONNECTION_NOTE_MAX_CHARS = 300 := rfl
      rw [h300] at h ⊢
      have : ("...".toList).length = 3 := by decide
      omega
    refine ⟨le_of_eq hlen, fun _ => ⟨rfl, hlen⟩⟩
  · rw [if_neg h]
    have h300 : Main.CONNECTION_NOTE_MAX_CHARS = 300 := rfl
    rw [h300] at h
    exact ⟨by omega, fun hgt => absurd hgt (by omega)⟩

set_option maxRecDepth 4000 in
/-- Witness for C9 at a 300-character name, where the Sports template
overflows and truncation applies. -/
theorem C9_connection_note_truncation_witness :
    (Main.build_connection_note (List.replicate 300 'a') [] "Sports".toList).length
      = 300 :=
  ((C9_connection_note_truncation (List.replicate 300 'a') [] "Sports".toList).2
    (by decide)).2


namespace Main
theorem process_lead_counter_le (cfg : OrchConfig) (c : Nat) (lead : Lead)
    (env : LeadEnv) (h : c < cfg.daily_limit) :
    (process_lead cfg c lead env).actions_taken ≤ cfg.daily_limit := by
  unfold process_lead
  split_ifs <;> simp <;> omega

set_option maxHeartbeats 1000000 in
theorem process_lead_challenge (cfg : OrchConfig) (c : Nat) (lead : Lead)
    (env : LeadEnv) :
    (process_lead cfg c lead env).outcome = .securityChallenge →
    (process_lead cfg c lead env).actions_taken = cfg.daily_limit
    ∧ (process_lead cfg c lead env).actions = [] := by
  unfold process_lead
  split_ifs
  all_goals first
  | exact fun _ => ⟨rfl, rfl⟩
  | exact fun h => absurd h (by decide)

theorem run_leads_stop (cfg : OrchConfig) (c : Nat)
    (items : List (Lead × LeadEnv)) (h : cfg.daily_limit ≤ c) :
    run_leads cfg c items = [] := by
  cases items with
  | nil => rfl
  | cons p rest =>
    obtain ⟨lead, env⟩ := p
    unfold run_leads
    rw [if_pos h]

end Main

/-- C1: within one orchestrator run starting at a counter not above the
daily cap, every processed lead sees a counter strictly below the cap when
it is picked up (so once the cap is reached no remaining contact is
processed at all), and after each lead the counter is still at most the
cap — it never exceeds it. -/
theorem C1_daily_cap_invariant (cfg : Main.OrchConfig) (c0 : Nat)
    (items : List (Main.Lead × Main.LeadEnv)) (h0 : c0 ≤ cfg.daily_limit) :
    ∀ step ∈ Main.run_leads cfg c0 items,
      step.counter_before < cfg.daily_limit
      ∧ step.result.actions_taken ≤ cfg.daily_limit := by
  induction items generalizing c0 with
  | nil => intro step hstep; cases hstep
  | cons p rest ih =>
    obtain ⟨lead, env⟩ := p
    intro step hstep
    unfold Main.run_leads at hstep
    by_cases hcap : cfg.daily_limit ≤ c0
    · rw [if_pos hcap] at hstep
      cases hstep
    · rw [if_neg hcap] at hstep
      have hlt : c0 < cfg.daily_limit := Nat.lt_of_not_le hcap
      have hle := Main.process_lead_counter_le cfg c0 lead env hlt
      rcases List.mem_cons.mp hstep with rfl | hmem
      · exact ⟨hlt, hle⟩
      · exact ih (Main.process_lead cfg c0 lead env).actions_taken hle step hmem

/-- Witness for C1: a two-lead run at cap 20 starting from counter 0. -/
theorem C1_daily_cap_invariant_witness :
    (⟨0, ⟨1, [Main.BrowserAction.connectionRequest], Main.LeadOutcome.processed,
        some "ConnectionSent".toList⟩⟩ : Main.RunStep).counter_before < 20
    ∧ (⟨0, ⟨1, [Main.BrowserAction.connectionRequest],
        Main.LeadOutcome.processed,
        some "ConnectionSent".toList⟩⟩ : Main.RunStep).result.actions_taken
      ≤ 20 :=
  C1_daily_cap_invariant ⟨20⟩ 0
    [(⟨"u".toList, "n".toList, "New".toList, [], [], []⟩,
      ⟨true, false, "ConnectionSent".toList, false, false, false⟩)]
    (by decide) _ (by decide)

/-- C2: if processing some lead reports a security challenge, that step
forces the action counter to the daily cap, attempts no state-mutating
action itself, and is the last step of the run — every remaining contact is
skipped.  The outcome is reported through the distinct
`LeadOutcome.securityChallenge` category. -/
theorem C2_challenge_abort (cfg : Main.OrchConfig) (c0 : Nat)
    (items : List (Main.Lead × Main.LeadEnv)) (pre post : List Main.RunStep)
    (step : Main.RunStep)
    (h : Main.run_leads cfg c0 items = pre ++ step :: post)
    (hch : step.result.outcome = .securityChallenge) :
    step.result.actions_taken = cfg.daily_limit
    ∧ step.result.actions = [] ∧ post = [] := by
  induction items generalizing c0 pre with
  | nil => cases pre <;> simp [Main.run_leads] at h
  | cons p rest ih =>
    obtain ⟨lead, env⟩ := p
    unfold Main.run_leads at h
    by_cases hcap : cfg.daily_limit ≤ c0
    · rw [if_pos hcap] at h
      cases pre <;> simp at h
    · rw [if_neg hcap] at h
      cases pre with
      | nil =>
        simp only [List.nil_append] at h
        have hstep2 := (List.cons_eq_cons.mp h).1
        have hpost := (List.cons_eq_cons.mp h).2
        rw [← hstep2] at hch ⊢
        have hc := Main.process_lead_challenge cfg c0 lead env hch
        refine ⟨hc.1, hc.2, ?_⟩
        rw [← hpost]
        exact Main.run_leads_stop cfg _ rest hc.1.ge
      | cons q pre2 =>
        have h2 := (List.cons_eq_cons.mp h).2
        exact ih _ pre2 h2

/-- Witness for C2: a challenge on the first of two leads at counter 0 and
cap 20 ends the run with the counter forced to 20. -/
theorem C2_challenge_abort_witness :
    (⟨0, ⟨20, [], Main.LeadOutcome.securityChallenge, none⟩⟩
        : Main.RunStep).result.actions_taken = (⟨20⟩ : Main.OrchConfig).daily_limit
    ∧ (⟨0, ⟨20, [], Main.LeadOutcome.securityChallenge, none⟩⟩
        : Main.RunStep).result.actions = []
    ∧ ([] : List Main.RunStep) = [] :=
  C2_challenge_abort ⟨20⟩ 0
    [(⟨"u".toList, "n".toList, "New".toList, [], [], []⟩,
      ⟨true, true, [], false, false, false⟩),
     (⟨"v".toList, "m".toList, "New".toList, [], [], []⟩,
      ⟨true, false, "ConnectionSent".toList, false, false, false⟩)]
    [] [] ⟨0, ⟨20, [], Main.LeadOutcome.securityChallenge, none⟩⟩
    (by decide) (by decide)

namespace Worker

theorem run_states_cons (s : TaskState) (e : WEvent) (es : List WEvent) :
    run_states s (e :: es) = s :: run_states (stepEvent s e) es := rfl

theorem mem_run_states_append (l1 : List WEvent) :
    ∀ (s : TaskState) (l2 : List WEvent) (x : TaskState),
      x ∈ run_states s (l1 ++ l2)
        ↔ x ∈ run_states s l1 ∨ x ∈ run_states (List.foldl stepEvent s l1) l2 := by
  induction l1 with
  | nil =>
    intro s l2 x
    constructor
    · intro h
      exact Or.inr h
    · intro h
      rcases h with h | h
      · rcases List.mem_singleton.mp (by simpa [run_states] using h) with rfl
        cases l2 <;> exact List.mem_cons_self _ _
      · exact h
  | cons e es ih =>
    intro s l2 x
    rw [List.cons_append, run_states_cons, run_states_cons, List.foldl_cons]
    simp only [List.mem_cons]
    rw [ih (stepEvent s e) l2 x]
    tauto

theorem send_loop_statuses (cfg : WCfg) (total : Nat) :
    ∀ (l : List MsgEnv) (progress : Nat),
      (send_loop cfg total progress l).1.filterMap statusAssign
        = if (send_loop cfg total progress l).2 then [TStatus.failed] else [] := by
  intro l
  induction l with
  | nil => intro progress; simp [send_loop]
  | cons m rest ih =>
    intro progress
    unfold send_loop
    split_ifs <;> simp_all [statusAssign]

theorem send_loop_progress (cfg : WCfg) (total : Nat) :
    ∀ (l : List MsgEnv) (progress : Nat) (status : TStatus),
      progress + l.length ≤ total →
      (∀ s ∈ run_states ⟨status, progress, total⟩
          (send_loop cfg total progress l).1, s.progress ≤ s.total)
      ∧ (List.foldl stepEvent ⟨status, progress, total⟩
          (send_loop cfg total progress l).1).progress ≤ total
      ∧ (List.foldl stepEvent ⟨status, progress, total⟩
          (send_loop cfg total progress l).1).total = total := by
  intro l
  induction l with
  | nil =>
    intro progress status h3
    dsimp only [send_loop, run_states, List.foldl]
    refine ⟨?_, by omega, rfl⟩
    intro s hs
    rcases List.mem_singleton.mp hs with rfl
    show progress ≤ total
    omega
  | cons m rest ih =>
    intro progress status h3
    simp only [List.length_cons] at h3
    unfold send_loop
    split_ifs with hf hn hc hp
    all_goals dsimp only [run_states, stepEvent, List.foldl]
    -- row missing: incProgress then the rest of the loop
    · have ihs := ih (progress + 1) status (by omega)
      refine ⟨?_, ihs.2.1, ihs.2.2⟩
      intro s hs
      rcases List.mem_cons.mp hs with rfl | hs
      · show progress ≤ total; omega
      · exact ihs.1 s hs
    -- navigation failure: navigate, incProgress, rest of the loop
    · have ihs := ih (progress + 1) status (by omega)
      refine ⟨?_, ihs.2.1, ihs.2.2⟩
      intro s hs
      rcases List.mem_cons.mp hs with rfl | hs
      · show progress ≤ total; omega
      rcases List.mem_cons.mp hs with rfl | hs
      · show progress ≤ total; omega
      · exact ihs.1 s hs
    -- security challenge: navigate, delay, setStatus failed, abort
    · refine ⟨?_, by show progress ≤ total; omega, rfl⟩
      intro s hs
      rcases List.mem_cons.mp hs with rfl | hs
      · show progress ≤ total; omega
      rcases List.mem_cons.mp hs with rfl | hs
      · show progress ≤ total; omega
      rcases List.mem_cons.mp hs with rfl | hs
      · show progress ≤ total; omega
      rcases List.mem_singleton.mp hs with rfl
      show progress ≤ total; omega
    -- message sent, more messages follow: trailing delay then the rest
    · have ihs := ih (progress + 1) status (by omega)
      refine ⟨?_, ihs.2.1, ihs.2.2⟩
      intro s hs
      rcases List.mem_cons.mp hs with rfl | hs
      · show progress ≤ total; omega
      rcases List.mem_cons.mp hs with rfl | hs
      · show progress ≤ total; omega
      rcases List.mem_cons.mp hs with rfl | hs
      · show progress ≤ total; omega
      rcases List.mem_cons.mp hs with rfl | hs
      · show progress ≤ total; omega
      rcases List.mem_cons.mp hs with rfl | hs
      · show progress + 1 ≤ total; omega
      · exact ihs.1 s hs
    -- message sent, final message of the job: no trailing delay
    · have ihs := ih (progress + 1) status (by omega)
      refine ⟨?_, ihs.2.1, ihs.2.2⟩
      intro s hs
      rcases List.mem_cons.mp hs with rfl | hs
      · show progress ≤ total; omega
      rcases List.mem_cons.mp hs with rfl | hs
      · show progress ≤ total; omega
      rcases List.mem_cons.mp hs with rfl | hs
      · show progress ≤ total; omega
      rcases List.mem_cons.mp hs with rfl | hs
      · show progress ≤ total; omega
      · exact ihs.1 s hs

end Worker

namespace Worker

theorem randint_bounds (a b r : Nat) (h : a ≤ b) :
    a ≤ randint a b r ∧ randint a b r ≤ b := by
  unfold randint
  have hm : r % (b - a + 1) < b - a + 1 := Nat.mod_lt _ (by omega)
  omega

theorem send_loop_delay_bound (cfg : WCfg) (total : Nat)
    (h : cfg.min_delay ≤ cfg.max_delay) :
    ∀ (l : List MsgEnv) (progress d : Nat),
      WEvent.delay d ∈ (send_loop cfg total progress l).1 →
      cfg.min_delay ≤ d ∧ d ≤ cfg.max_delay := by
  intro l
  induction l with
  | nil =>
    intro progress d hd
    cases hd
  | cons m rest ih =>
    intro progress d hd
    unfold send_loop at hd
    split_ifs at hd
    -- row missing
    · rcases List.mem_cons.mp hd with heq | hd
      · cases heq
      · exact ih _ _ hd
    -- navigation failure
    · rcases List.mem_cons.mp hd with heq | hd
      · cases heq
      rcases List.mem_cons.mp hd with heq | hd
      · cases heq
      · exact ih _ _ hd
    -- security challenge
    · rcases List.mem_cons.mp hd with heq | hd
      · cases heq
      rcases List.mem_cons.mp hd with heq | hd
      · cases heq
        exact randint_bounds _ _ _ h
      rcases List.mem_cons.mp hd with heq | hd
      · cases heq
      · cases hd
    -- message sent, trailing delay
    · rcases List.mem_cons.mp hd with heq | hd
      · cases heq
      rcases List.mem_cons.mp hd with heq | hd
      · cases heq
        exact randint_bounds _ _ _ h
      rcases List.mem_cons.mp hd with heq | hd
      · cases heq
      rcases List.mem_cons.mp hd with heq | hd
      · cases heq
      rcases List.mem_cons.mp hd with heq | hd
      · cases heq
        exact randint_bounds _ _ _ h
      · exact ih _ _ hd
    -- message sent, final message
    · rcases List.mem_cons.mp hd with heq | hd
      · cases heq
      rcases List.mem_cons.mp hd with heq | hd
      · cases heq
        exact randint_bounds _ _ _ h
      rcases List.mem_cons.mp hd with heq | hd
      · cases heq
      rcases List.mem_cons.mp hd with heq | hd
      · cases heq
      · exact ih _ _ hd

theorem send_loop_sd (cfg : WCfg) (total : Nat) :
    ∀ (l : List MsgEnv) (progress : Nat), progress + l.length = total →
      chainB sd_separated
        ((send_loop cfg total progress l).1.filterMap sd_proj) = true
      ∧ ∀ x tl,
          (send_loop cfg total progress l).1.filterMap sd_proj = x :: tl →
          isSend x = false := by
  intro l
  induction l with
  | nil =>
    intro progress h
    exact ⟨rfl, fun x tl hx => by cases hx⟩
  | cons m rest ih =>
    intro progress h
    simp only [List.length_cons] at h
    unfold send_loop
    split_ifs with hf hn hc hp
    -- row missing: no send, no delay
    · exact ih (progress + 1) (by omega)
    -- navigation failure: no send, no delay
    · exact ih (progress + 1) (by omega)
    -- security challenge: a single delay
    · refine ⟨rfl, fun x tl hx => ?_⟩
      have hx1 := (List.cons_eq_cons.mp hx).1
      rw [← hx1]
      rfl
    -- message sent, more messages follow
    · have ihs := ih (progress + 1) (by omega)
      refine ⟨?_, fun x tl hx => ?_⟩
      · show chainB sd_separated
          (SDEvent.delay (randint cfg.min_delay cfg.max_delay m.r1)
            :: SDEvent.send
            :: SDEvent.delay (randint cfg.min_delay cfg.max_delay m.r2)
            :: (send_loop cfg total (progress + 1) rest).1.filterMap sd_proj)
          = true
        rw [chainB_cons_cons, chainB_cons_cons]
        rcases hX : (send_loop cfg total (progress + 1) rest).1.filterMap sd_proj
          with _ | ⟨x, tl⟩
        · rfl
        · rw [chainB_cons_cons]
          have hc1 := ihs.1
          rw [hX] at hc1
          simp [sd_separated, isSend, hc1]
      · have hx1 := (List.cons_eq_cons.mp hx).1
        rw [← hx1]
        rfl
    -- message sent, final message of the job
    · have hr0 : rest = [] := List.length_eq_zero.mp (by omega)
      subst hr0
      refine ⟨rfl, fun x tl hx => ?_⟩
      have hx1 := (List.cons_eq_cons.mp hx).1
      rw [← hx1]
      rfl

end Worker

/-- C7: one worker job only ever moves its status forward along
queued -> running -> completed or queued -> running -> failed — the
status assignments of any job trace are exactly `[running, failed]` or
`[running, completed]` from the initial `queued`, never a regression — and
every snapshot of the task record along the trace satisfies
`progress <= total`. -/
theorem C7_job_lifecycle (cfg : Worker.WCfg) (ready : Bool)
    (msgs : List Worker.MsgEnv) :
    ((Worker.run_task cfg ready msgs).filterMap Worker.statusAssign
        = [Worker.TStatus.running, Worker.TStatus.failed]
      ∨ (Worker.run_task cfg ready msgs).filterMap Worker.statusAssign
        = [Worker.TStatus.running, Worker.TStatus.completed])
    ∧ ∀ s ∈ Worker.run_states ⟨Worker.TStatus.queued, 0, 0⟩
        (Worker.run_task cfg ready msgs), s.progress ≤ s.total := by
  constructor
  · unfold Worker.run_task
    by_cases hr : ready = false
    · rw [if_pos hr]
      left
      rfl
    · rw [if_neg hr]
      by_cases hab : (Worker.send_loop cfg msgs.length 0 msgs).2 = true
      · left
        simp [List.filterMap_cons, List.filterMap_append, Worker.statusAssign,
          Worker.send_loop_statuses, hab]
      · right
        simp [List.filterMap_cons, List.filterMap_append, Worker.statusAssign,
          Worker.send_loop_statuses, hab]
  · intro s hs
    unfold Worker.run_task at hs
    by_cases hr : ready = false
    · rw [if_pos hr] at hs
      rcases List.mem_cons.mp hs with rfl | hs
      · exact Nat.le_refl 0
      rcases List.mem_cons.mp hs with rfl | hs
      · exact Nat.le_refl 0
      rcases List.mem_singleton.mp hs with rfl
      exact Nat.le_refl 0
    · rw [if_neg hr] at hs
      rcases List.mem_cons.mp hs with rfl | hs
      · exact Nat.le_refl 0
      rcases List.mem_cons.mp hs with rfl | hs
      · exact Nat.le_refl 0
      rw [Worker.mem_run_states_append] at hs
      have hinv := Worker.send_loop_progress cfg msgs.length msgs 0
        Worker.TStatus.running (by omega)
      rcases hs with hs | hs
      · exact hinv.1 s hs
      · by_cases hab : (Worker.send_loop cfg msgs.length 0 msgs).2 = true
        · rw [if_pos hab] at hs
          rcases List.mem_singleton.mp hs with rfl
          exact hinv.2.1.trans_eq hinv.2.2.symm
        · rw [if_neg hab] at hs
          rcases List.mem_cons.mp hs with rfl | hs
          · exact hinv.2.1.trans_eq hinv.2.2.symm
          rcases List.mem_singleton.mp hs with rfl
          exact hinv.2.1.trans_eq hinv.2.2.symm

/-- Witness for C7: a one-message job on a ready browser. -/
theorem C7_job_lifecycle_witness :
    ((Worker.run_task ⟨60, 120⟩ true [⟨true, true, false, true, 0, 0⟩]).filterMap
        Worker.statusAssign
        = [Worker.TStatus.running, Worker.TStatus.failed]
      ∨ (Worker.run_task ⟨60, 120⟩ true
          [⟨true, true, false, true, 0, 0⟩]).filterMap Worker.statusAssign
        = [Worker.TStatus.running, Worker.TStatus.completed])
    ∧ ∀ s ∈ Worker.run_states ⟨Worker.TStatus.queued, 0, 0⟩
        (Worker.run_task ⟨60, 120⟩ true [⟨true, true, false, true, 0, 0⟩]),
        s.progress ≤ s.total :=
  C7_job_lifecycle ⟨60, 120⟩ true [⟨true, true, false, true, 0, 0⟩]

/-- C3 counterexample: a job whose single message is sent successfully ends
with the send as the last browser action of the job and no safety delay
after it — under claim C3 every state-mutating send must be followed by a
delay, "including the last action of a job", which fails here. -/
theorem C3_counterexample :
    Worker.delay_follows_each_send
      (Worker.run_task ⟨60, 120⟩ true [⟨true, true, false, true, 0, 0⟩])
      = false := by
  decide

/-- C3 as amended: every safety-delay draw of a job lies within the
configured inclusive `[min_delay, max_delay]` window and is positive, and no
two state-mutating sends are adjacent in the send/delay skeleton of the
trace — at least one such delay elapses between any two sends.  Only the
final send of a job may lack a following delay. -/
theorem C3_amended_delay_discipline (cfg : Worker.WCfg) (ready : Bool)
    (msgs : List Worker.MsgEnv) (h1 : 0 < cfg.min_delay)
    (h2 : cfg.min_delay ≤ cfg.max_delay) :
    (∀ d, Worker.WEvent.delay d ∈ Worker.run_task cfg ready msgs →
        cfg.min_delay ≤ d ∧ d ≤ cfg.max_delay ∧ 0 < d)
    ∧ chainB Worker.sd_separated
        ((Worker.run_task cfg ready msgs).filterMap Worker.sd_proj) = true := by
  constructor
  · intro d hd
    unfold Worker.run_task at hd
    by_cases hr : ready = false
    · rw [if_pos hr] at hd
      rcases List.mem_cons.mp hd with heq | hd
      · cases heq
      rcases List.mem_singleton.mp hd with heq
      cases heq
    · rw [if_neg hr] at hd
      rcases List.mem_cons.mp hd with heq | hd
      · cases heq
      rcases List.mem_cons.mp hd with heq | hd
      · cases heq
      rcases List.mem_append.mp hd with hd | hd
      · have hb := Worker.send_loop_delay_bound cfg msgs.length h2 msgs 0 d hd
        exact ⟨hb.1, hb.2, by omega⟩
      · by_cases hab : (Worker.send_loop cfg msgs.length 0 msgs).2 = true
        · rw [if_pos hab] at hd
          cases hd
        · rw [if_neg hab] at hd
          rcases List.mem_singleton.mp hd with heq
          cases heq
  · unfold Worker.run_task
    by_cases hr : ready = false
    · rw [if_pos hr]
      rfl
    · rw [if_neg hr]
      have hsd := Worker.send_loop_sd cfg msgs.length msgs 0 (by omega)
      by_cases hab : (Worker.send_loop cfg msgs.length 0 msgs).2 = true
      · rw [if_pos hab]
        simpa [List.filterMap_cons, List.filterMap_append, Worker.sd_proj]
          using hsd.1
      · rw [if_neg hab]
        simpa [List.filterMap_cons, List.filterMap_append, Worker.sd_proj]
          using hsd.1

/-- Witness for C3 as amended: a two-message job at the default 60-120 s
window. -/
theorem C3_amended_delay_discipline_witness :
    (∀ d, Worker.WEvent.delay d ∈ Worker.run_task ⟨60, 120⟩ true
        [⟨true, true, false, true, 5, 6⟩, ⟨true, true, false, true, 7, 8⟩] →
        (60 : Nat) ≤ d ∧ d ≤ 120 ∧ 0 < d)
    ∧ chainB Worker.sd_separated
        ((Worker.run_task ⟨60, 120⟩ true
          [⟨true, true, false, true, 5, 6⟩,
           ⟨true, true, false, true, 7, 8⟩]).filterMap Worker.sd_proj)
      = true :=
  C3_amended_delay_discipline ⟨60, 120⟩ true
    [⟨true, true, false, true, 5, 6⟩, ⟨true, true, false, true, 7, 8⟩]
    (by decide) (by decide)

namespace TaskQueue

theorem nodup_ids_filter (tasks : List WorkerTask)
    (h : (tasks.map WorkerTask.task_id).Nodup) (p : WorkerTask → Bool) :
    ((tasks.filter p).map WorkerTask.task_id).Nodup :=
  ((List.filter_sublist tasks).map WorkerTask.task_id).nodup h

theorem doomed_terminal (tasks : List WorkerTask) (m : Nat)
    (h : (tasks.map WorkerTask.task_id).Nodup) (t : WorkerTask)
    (ht : t ∈ tasks)
    (hid : t.task_id ∈ ((tasks.filter isTerminal).take
      ((tasks.filter isTerminal).length - m)).map WorkerTask.task_id) :
    isTerminal t = true := by
  rcases List.mem_map.mp hid with ⟨u, hu, huid⟩
  have humem : u ∈ tasks.filter isTerminal := List.mem_of_mem_take hu
  have huterm := (List.mem_filter.mp humem).2
  have hueq : u = t :=
    List.inj_on_of_nodup_map h (List.mem_filter.mp humem).1 ht huid
  rw [← hueq]
  exact huterm

theorem filter_not_mem_take_map (l : List WorkerTask) (k : Nat)
    (hnd : (l.map WorkerTask.task_id).Nodup) :
    (l.filter fun t =>
        decide (t.task_id ∉ (l.take k).map WorkerTask.task_id))
      = l.drop k := by
  have hl : l.Nodup := List.Nodup.of_map WorkerTask.task_id hnd
  set M := (l.take k).map WorkerTask.task_id with hMdef
  conv_lhs => rw [← List.take_append_drop k l]
  rw [List.filter_append]
  have htake : ((l.take k).filter fun t => decide (t.task_id ∉ M)) = [] := by
    rw [List.filter_eq_nil_iff]
    intro a ha
    rw [decide_eq_true_eq]
    intro hcon
    exact hcon (List.mem_map.mpr ⟨a, ha, rfl⟩)
  have hdrop : ((l.drop k).filter fun t => decide (t.task_id ∉ M))
      = l.drop k := by
    rw [List.filter_eq_self]
    intro a ha
    rw [decide_eq_true_eq]
    intro hmem
    rw [hMdef] at hmem
    rcases List.mem_map.mp hmem with ⟨u, hu, huid⟩
    have hua : u = a := List.inj_on_of_nodup_map hnd
      (List.mem_of_mem_take hu) (List.mem_of_mem_drop ha) huid
    rw [hua] at hu
    exact (List.disjoint_take_drop hl (Nat.le_refl k)) hu ha
  rw [htake, hdrop, List.nil_append]

theorem cleanup_old_terminal_filter (tasks : List WorkerTask) (m : Nat)
    (h : (tasks.map WorkerTask.task_id).Nodup)
    (hlen : m < (tasks.filter isTerminal).length) :
    (cleanup_old tasks m).filter isTerminal
      = (tasks.filter isTerminal).drop
          ((tasks.filter isTerminal).length - m) := by
  unfold cleanup_old
  rw [if_pos hlen, List.filter_filter]
  have hswap : (tasks.filter fun t => isTerminal t
        && decide (t.task_id ∉ ((tasks.filter isTerminal).take
          ((tasks.filter isTerminal).length - m)).map WorkerTask.task_id))
      = ((tasks.filter isTerminal).filter fun t =>
          decide (t.task_id ∉ ((tasks.filter isTerminal).take
            ((tasks.filter isTerminal).length - m)).map
            WorkerTask.task_id)) := by
    rw [List.filter_filter]
    exact List.filter_congr fun x _ => Bool.and_comm _ _
  rw [hswap]
  exact filter_not_mem_take_map (tasks.filter isTerminal) _
    (nodup_ids_filter tasks h isTerminal)

end TaskQueue

/-- C8: `cleanup_old` removes only terminal (completed or failed) tasks;
it removes nothing unless more than `max_completed` terminal tasks exist;
when it does remove, the surviving terminal tasks are exactly the
`max_completed` most recently registered ones (the oldest surplus ones are
dropped, in registration order); and queued or running tasks are all kept,
in order.  The hypothesis records that registry keys (task ids) are unique,
which a Python dict guarantees by construction. -/
theorem C8_cleanup_retention (tasks : List TaskQueue.WorkerTask) (m : Nat)
    (h : (tasks.map TaskQueue.WorkerTask.task_id).Nodup) :
    (∀ t ∈ tasks, t ∉ TaskQueue.cleanup_old tasks m →
        TaskQueue.isTerminal t = true)
    ∧ ((tasks.filter TaskQueue.isTerminal).length ≤ m →
        TaskQueue.cleanup_old tasks m = tasks)
    ∧ (m < (tasks.filter TaskQueue.isTerminal).length →
        (TaskQueue.cleanup_old tasks m).filter TaskQueue.isTerminal
          = (tasks.filter TaskQueue.isTerminal).drop
              ((tasks.filter TaskQueue.isTerminal).length - m)
        ∧ ((TaskQueue.cleanup_old tasks m).filter
            TaskQueue.isTerminal).length = m)
    ∧ (TaskQueue.cleanup_old tasks m).filter
        (fun t => ! TaskQueue.isTerminal t)
      = tasks.filter (fun t => ! TaskQueue.isTerminal t) := by
  by_cases hlen : m < (tasks.filter TaskQueue.isTerminal).length
  case neg =>
    have hcl : TaskQueue.cleanup_old tasks m = tasks := by
      unfold TaskQueue.cleanup_old
      rw [if_neg hlen]
    refine ⟨?_, fun _ => hcl, fun hc => absurd hc hlen, by rw [hcl]⟩
    intro t ht hnot
    rw [hcl] at hnot
    exact absurd ht hnot
  case pos =>
    have hcl : TaskQueue.cleanup_old tasks m
        = (tasks.filter fun t => decide (t.task_id ∉
            ((tasks.filter TaskQueue.isTerminal).take
              ((tasks.filter TaskQueue.isTerminal).length - m)).map
              TaskQueue.WorkerTask.task_id)) := by
      unfold TaskQueue.cleanup_old
      rw [if_pos hlen]
  
    refine ⟨?_, fun hc => absurd hlen (Nat.not_lt.mpr hc), fun _ => ⟨?_, ?_⟩, ?_⟩
    -- only terminal tasks are removed
    · intro t ht hnot
      rw [hcl] at hnot
      by_cases hp : t.task_id ∈ ((tasks.filter TaskQueue.isTerminal).take
          ((tasks.filter TaskQueue.isTerminal).length - m)).map
          TaskQueue.WorkerTask.task_id
      · exact TaskQueue.doomed_terminal tasks m h t ht hp
      · exact absurd (List.mem_filter.mpr ⟨ht, by simpa using hp⟩) hnot
    -- the surviving terminal tasks are the newest max_completed ones
    · exact TaskQueue.cleanup_old_terminal_filter tasks m h hlen
    -- exactly max_completed terminal tasks remain
    · rw [TaskQueue.cleanup_old_terminal_filter tasks m h hlen,
        List.length_drop]
      omega
    -- queued and running tasks all survive, in order
    · rw [hcl, List.filter_filter]
      apply List.filter_congr
      intro x hx
      by_cases hxt : TaskQueue.isTerminal x = true
      · simp [hxt]
      · have hpred : decide (x.task_id ∉
            ((tasks.filter TaskQueue.isTerminal).take
              ((tasks.filter TaskQueue.isTerminal).length - m)).map
              TaskQueue.WorkerTask.task_id) = true := by
          rw [decide_eq_true_eq]
          intro hmem
          exact hxt (TaskQueue.doomed_terminal tasks m h x hx hmem)
        rw [hpred]
        simp [hxt]

/-- Witness for C8: a registry holding one completed and one queued task
with `max_completed = 1` is left untouched by cleanup. -/
theorem C8_cleanup_retention_witness :
    TaskQueue.cleanup_old
        [⟨1, Worker.TStatus.completed⟩, ⟨2, Worker.TStatus.queued⟩] 1
      = [⟨1, Worker.TStatus.completed⟩, ⟨2, Worker.TStatus.queued⟩] :=
  (C8_cleanup_retention
    [⟨1, Worker.TStatus.completed⟩, ⟨2, Worker.TStatus.queued⟩] 1
    (by decide)).2.1 (by decide)

namespace BatchService

theorem get_or_create_out_of_create (cfg : BatchCfg) (db : DB)
    (today now : Int)
    (hb : ∀ b ∈ db.batches, b.batch_date = today → b.entries = []) :
    (get_or_create_today_batch cfg db today now).2.contacts
      = (eligible_contacts cfg db now).map fun c =>
          (⟨c.id, false, none,
            build_initial_message c.first_name c.company c.industry⟩
            : BatchContactOut) := by
  unfold get_or_create_today_batch
  rcases hf : db.batches.find? (fun x => x.batch_date == today) with _ | b
  · rw [hf]
    rfl
  · have hbmem := List.mem_of_find?_eq_some hf
    have hbdate : b.batch_date = today := by
      have := List.find?_some hf
      simpa using this
    have hbe : b.entries = [] := hb b hbmem hbdate
    rw [hf]
    show (if 0 < b.entries.length then _ else
      create_today_batch cfg db today now true).2.contacts = _
    rw [hbe]
    rw [if_neg (by decide)]
    rfl

theorem eligible_contacts_mem (cfg : BatchCfg) (db : DB) (now : Int)
    (c : Contact) (hc : c ∈ eligible_contacts cfg db now) :
    c ∈ db.contacts ∧ c.is_connected = true
    ∧ (c.last_shown_at = none
        ∨ ∃ t, c.last_shown_at = some t ∧ t < now - cfg.cooldown_days * 86400)
    ∧ c.id ∉ ((db.messages.filter fun msg =>
        msg.message_type == "initial" && msg.status == "sent").map
        MessageRow.contact_id) := by
  unfold eligible_contacts at hc
  have hc2 := List.mem_of_mem_take hc
  have hc3 := (List.mem_insertionSort _).mp hc2
  rcases List.mem_filter.mp hc3 with ⟨hmem, hcond⟩
  rw [Bool.and_eq_true, Bool.and_eq_true] at hcond
  obtain ⟨⟨h1, h2⟩, h3⟩ := hcond
  refine ⟨hmem, h1, ?_, of_decide_eq_true h3⟩
  rcases hls : c.last_shown_at with _ | t
  · exact Or.inl rfl
  · rw [hls] at h2
    exact Or.inr ⟨t, rfl, of_decide_eq_true h2⟩

end BatchService

/-- C5: when no non-empty batch exists yet for the date (the generation path
runs), the returned batch rows are the eligible contacts in order: no
contact possessing a sent initial message is ever selected, every selected
contact is a connected contact never shown or last shown before the cooldown
cutoff, at most `batch_size` contacts are selected, and the selection is
ordered oldest-shown-first with never-shown (null) contacts first. -/
theorem C5_new_batch_selection (cfg : BatchService.BatchCfg)
    (db : BatchService.DB) (today now : Int)
    (hb : ∀ b ∈ db.batches, b.batch_date = today → b.entries = []) :
    ((BatchService.get_or_create_today_batch cfg db today now).2.contacts
      = (BatchService.eligible_contacts cfg db now).map fun c =>
          (⟨c.id, false, none, BatchService.build_initial_message
            c.first_name c.company c.industry⟩
            : BatchService.BatchContactOut))
    ∧ (∀ msg ∈ db.messages, msg.message_type = "initial" →
        msg.status = "sent" →
        ∀ o ∈ (BatchService.get_or_create_today_batch cfg db today
            now).2.contacts, o.contact_id ≠ msg.contact_id)
    ∧ (∀ o ∈ (BatchService.get_or_create_today_batch cfg db today
          now).2.contacts,
        ∃ c ∈ db.contacts, c.id = o.contact_id ∧ c.is_connected = true
          ∧ (c.last_shown_at = none ∨ ∃ t, c.last_shown_at = some t
              ∧ t < now - cfg.cooldown_days * 86400))
    ∧ (BatchService.get_or_create_today_batch cfg db today
        now).2.contacts.length ≤ cfg.batch_size
    ∧ chainB BatchService.shownLe
        (BatchService.eligible_contacts cfg db now) = true := by
  have hout := BatchService.get_or_create_out_of_create cfg db today now hb
  refine ⟨hout, ?_, ?_, ?_, ?_⟩
  -- no contact with a sent initial message is selected
  · intro msg hmsg hty hst o ho heq
    rw [hout] at ho
    rcases List.mem_map.mp ho with ⟨c, hc, rfl⟩
    have hnot := (BatchService.eligible_contacts_mem cfg db now c hc).2.2.2
    apply hnot
    have hceq : c.id = msg.contact_id := heq
    rw [hceq]
    exact List.mem_map.mpr ⟨msg,
      List.mem_filter.mpr ⟨hmsg, by simp [hty, hst]⟩, rfl⟩
  -- selected contacts are connected and past the cooldown window
  · intro o ho
    rw [hout] at ho
    rcases List.mem_map.mp ho with ⟨c, hc, rfl⟩
    have hm := BatchService.eligible_contacts_mem cfg db now c hc
    exact ⟨c, hm.1, rfl, hm.2.1, hm.2.2.1⟩
  -- at most batch_size contacts are selected
  · rw [hout, List.length_map]
    unfold BatchService.eligible_contacts
    rw [List.length_take]
    exact min_le_left _ _
  -- the selection is sorted oldest-shown-first, nulls first
  · apply chainB_of_pairwise
    unfold BatchService.eligible_contacts
    exact List.Pairwise.sublist (List.take_sublist _ _)
      (List.sorted_insertionSort _ _)

/-- Witness for C5: two connected never-shown contacts, one of which has a
sent initial message; the batch for the date does not exist yet. -/
theorem C5_new_batch_selection_witness :
    (BatchService.get_or_create_today_batch ⟨10, 60⟩
      ⟨[⟨1, "A", "B", "Sports", true, none⟩,
        ⟨2, "C", "D", "News", true, none⟩],
       [⟨2, "initial", "sent"⟩], []⟩ 0 0).2.contacts.length ≤ 10 :=
  (C5_new_batch_selection ⟨10, 60⟩
    ⟨[⟨1, "A", "B", "Sports", true, none⟩,
      ⟨2, "C", "D", "News", true, none⟩],
     [⟨2, "initial", "sent"⟩], []⟩ 0 0
    (fun b hb2 => absurd hb2 (List.not_mem_nil b))).2.2.2.1

/-- C4 counterexample: on a date with no eligible contacts the first call
creates the batch for the date with an empty entry set; a contact then
becomes connected (eligibility data changes); the second call for the very
same date re-runs selection (`if batch and len(batch.entries) > 0` fails on
the empty batch) and returns a different, non-empty contact set — so a
created batch is not always stable. -/
theorem C4_counterexample :
    (BatchService.get_or_create_today_batch ⟨10, 60⟩
        ⟨[], [], []⟩ 0 0).2.contacts = []
    ∧ (BatchService.get_or_create_today_batch ⟨10, 60⟩
        ⟨[], [], []⟩ 0 0).1.batches = [⟨0, []⟩]
    ∧ (BatchService.get_or_create_today_batch ⟨10, 60⟩
        ⟨[⟨1, "A", "B", "Sports", true, none⟩], [],
          (BatchService.get_or_create_today_batch ⟨10, 60⟩
            ⟨[], [], []⟩ 0 0).1.batches⟩ 0 0).2.contacts ≠ [] := by
  refine ⟨rfl, rfl, ?_⟩
  intro hcon
  cases hcon

/-- C4 as amended: once the batch of a date exists with at least one entry,
`get_or_create_today_batch` leaves the database unchanged and returns
exactly the recorded entries (same contact set, same selected flags),
whatever the contact and message tables contain — a batch created with an
empty entry set is instead regenerated by the next call. -/
theorem C4_amended_batch_stability (cfg : BatchService.BatchCfg)
    (db : BatchService.DB) (today now : Int) (b : BatchService.DailyBatch)
    (hfind : db.batches.find? (fun x => x.batch_date == today) = some b)
    (hne : b.entries ≠ []) :
    (BatchService.get_or_create_today_batch cfg db today now).1 = db
    ∧ (BatchService.get_or_create_today_batch cfg db today
        now).2.contacts.map (fun o => (o.contact_id, o.selected))
      = b.entries.map (fun e => (e.contact_id, e.selected)) := by
  have hred : BatchService.get_or_create_today_batch cfg db today now
      = (db, ⟨today, b.entries.map fun e =>
          match db.contacts.find? (fun c => c.id == e.contact_id) with
          | some c => ⟨e.contact_id, e.selected, e.message_id,
              BatchService.build_initial_message c.first_name c.company
                c.industry⟩
          | none => ⟨e.contact_id, e.selected, e.message_id, ""⟩⟩) := by
    unfold BatchService.get_or_create_today_batch
    rw [hfind]
    show (if 0 < b.entries.length then _ else
        BatchService.create_today_batch cfg db today now true) = _
    rw [if_pos (List.length_pos.mpr hne)]
  rw [hred]
  refine ⟨rfl, ?_⟩
  show (b.entries.map _).map _ = _
  rw [List.map_map]
  apply List.map_congr_left
  intro e he
  rcases hfc : db.contacts.find? (fun c => c.id == e.contact_id) with _ | c
    <;> simp [Function.comp, hfc]

/-- Witness for C4 as amended: a database whose batch for the date holds one
selected entry. -/
theorem C4_amended_batch_stability_witness :
    (BatchService.get_or_create_today_batch ⟨10, 60⟩
        ⟨[], [], [⟨0, [⟨5, true, none⟩]⟩]⟩ 0 0).1
      = ⟨[], [], [⟨0, [⟨5, true, none⟩]⟩]⟩
    ∧ (BatchService.get_or_create_today_batch ⟨10, 60⟩
        ⟨[], [], [⟨0, [⟨5, true, none⟩]⟩]⟩ 0 0).2.contacts.map
        (fun o => (o.contact_id, o.selected))
      = ([⟨5, true, none⟩] : List BatchService.BatchEntry).map
          (fun e => (e.contact_id, e.selected)) :=
  C4_amended_batch_stability ⟨10, 60⟩ ⟨[], [], [⟨0, [⟨5, true, none⟩]⟩]⟩ 0 0
    ⟨0, [⟨5, true, none⟩]⟩ (by decide) (by decide)
